import Mathlib

/-!
Verification of the order-management system in `src/sistema_pedidos.py`.

The Python program is a single-threaded, in-memory CRUD workflow.  We embed it
shallowly:

* Python `float` prices are modelled as exact rationals (`ℚ`); all price
  literals in the program are exact decimals.
* A Python `dict` keyed by `int` is modelled as an association list
  `List (Int × α)` with first-match lookup and in-place (position-preserving)
  insert-or-update, matching `dict` semantics for the operations the program
  uses.
* Mutation is modelled by explicit state passing: each stateful method takes
  the receiver's state and returns the new state alongside its result.
* `raise ValueError(...)` is modelled as `Except OrderError`, the error
  constructors carrying exactly the data interpolated into the Python message.
* Console `print` calls and `datetime.now()` (`Order.created_at`) are side
  effects no verified property observes; they are omitted from the state.
* The notifier variants only print and return `True`; we record each
  invocation in a `notifications` log so that "the notifier was invoked" is
  observable.
-/

namespace SistemaPedidos

/-- Product record (`class Product`): id, name, unit price, stock. -/
structure Product where
  id : Int
  name : String
  price : ℚ
  stock : Int
deriving DecidableEq, Repr

/-- Order item (`class OrderItem`): a product together with a requested
quantity. -/
structure OrderItem where
  product : Product
  quantity : Int
deriving DecidableEq, Repr

/-- `OrderItem.subtotal`: unit price × quantity. -/
def OrderItem.subtotal (it : OrderItem) : ℚ :=
  it.product.price * (it.quantity : ℚ)

/-- Order record (`class Order`): optional id (assigned by the store on first
save), customer name, item list, status (default `"pending"`).  The
`created_at` wall-clock timestamp is omitted: no verified property observes
it. -/
structure Order where
  id : Option Int
  customer_name : String
  items : List OrderItem
  status : String := "pending"
deriving DecidableEq, Repr

/-- `Order.total`: sum of the items' subtotals. -/
def Order.total (o : Order) : ℚ :=
  (o.items.map OrderItem.subtotal).sum

/-- First-match lookup in an association list, i.e. `dict.get(k)`. -/
def dictLookup {α : Type} (k : Int) : List (Int × α) → Option α
  | [] => none
  | (k2, v) :: rest => if k2 = k then some v else dictLookup k rest

/-- Insert-or-update in an association list, i.e. `d[k] = v`: an existing
binding is overwritten in place, a new binding is appended. -/
def dictInsert {α : Type} (k : Int) (v : α) : List (Int × α) → List (Int × α)
  | [] => [(k, v)]
  | (k2, v2) :: rest =>
      if k2 = k then (k, v) :: rest else (k2, v2) :: dictInsert k v rest

/-- State of `InMemoryOrderRepository`: the `_orders` dict and the `_next_id`
counter. -/
structure OrderRepo where
  orders : List (Int × Order)
  next_id : Int
deriving DecidableEq, Repr

/-- `InMemoryOrderRepository.__init__`: empty dict, counter starts at 1. -/
def OrderRepo.empty : OrderRepo := ⟨[], 1⟩

/-- `InMemoryOrderRepository.save`: if the order has no id, assign `_next_id`
and bump the counter; store the (possibly updated) order under its id.  The
Python method mutates `order` in place; we return the updated order. -/
def OrderRepo.save (repo : OrderRepo) (o : Order) : Order × OrderRepo :=
  match o.id with
  | none =>
      let o2 : Order := { o with id := some repo.next_id }
      (o2, ⟨dictInsert repo.next_id o2 repo.orders, repo.next_id + 1⟩)
  | some i => (o, ⟨dictInsert i o repo.orders, repo.next_id⟩)

/-- `InMemoryOrderRepository.find_by_id`: `self._orders.get(order_id)`. -/
def OrderRepo.find_by_id (repo : OrderRepo) (oid : Int) : Option Order :=
  dictLookup oid repo.orders

/-- `InMemoryOrderRepository.find_all`: `list(self._orders.values())`. -/
def OrderRepo.find_all (repo : OrderRepo) : List Order :=
  repo.orders.map Prod.snd

/-- State of `InMemoryProductRepository`: the `_products` dict. -/
structure ProductRepo where
  products : List (Int × Product)
deriving DecidableEq, Repr

/-- The catalog seeded by `InMemoryProductRepository.__init__`.  Prices are
the program's decimal literals as exact rationals; `\x27` is the ASCII
apostrophe in the monitor's name. -/
def initialProducts : List (Int × Product) :=
  [ (1, ⟨1, "Laptop Gaming", 1200, 5⟩),
    (2, ⟨2, "Mouse Inalámbrico", 4599 / 100, 20⟩),
    (3, ⟨3, "Teclado Mecánico", 8999 / 100, 15⟩),
    (4, ⟨4, "Monitor 24\x27", 29999 / 100, 8⟩) ]

/-- A freshly constructed `InMemoryProductRepository`. -/
def ProductRepo.initial : ProductRepo := ⟨initialProducts⟩

/-- `InMemoryProductRepository.find_by_id`: `self._products.get(product_id)`
(the diagnostic print is omitted). -/
def ProductRepo.find_by_id (repo : ProductRepo) (pid : Int) : Option Product :=
  dictLookup pid repo.products

/-- `InMemoryProductRepository.find_all`: `list(self._products.values())`. -/
def ProductRepo.find_all (repo : ProductRepo) : List Product :=
  repo.products.map Prod.snd

/-- `InMemoryProductRepository.update_stock`: if `product_id` is a key of the
dict, overwrite that product's `stock` field with `new_stock` (no bounds
check); otherwise do nothing.  The Python code mutates the stored `Product`
object; here every binding whose key matches gets the new stock. -/
def ProductRepo.update_stock (repo : ProductRepo) (pid ns : Int) : ProductRepo :=
  ⟨repo.products.map fun kv => if kv.1 = pid then (kv.1, { kv.2 with stock := ns }) else kv⟩

/-- The `ValueError`s raised by `OrderService`, carrying exactly the data
interpolated into each Python message. -/
inductive OrderError where
  | productNotFound (pid : Int)
  | insufficientStock (name : String) (available requested : Int)
  | orderNotFound (oid : Int)
deriving DecidableEq, Repr

/-- Combined state of an `OrderService` and its injected dependencies:
the order repository, the product repository, and the log of orders passed to
`notification_service.send_order_confirmation`. -/
structure ServiceState where
  order_repository : OrderRepo
  product_repository : ProductRepo
  notifications : List Order
deriving DecidableEq, Repr

/-- The validation/decrement loop of `OrderService.create_order`
(`for product_id, quantity in items:`).  `acc` is the growing `order_items`
list.  On the first failing pair the loop stops, returning the error and the
product-repository state reached so far (no rollback). -/
def createOrderLoop (repo : ProductRepo) :
    List (Int × Int) → List OrderItem → Except OrderError (List OrderItem) × ProductRepo
  | [], acc => (.ok acc, repo)
  | (pid, qty) :: rest, acc =>
      match repo.find_by_id pid with
      | none => (.error (.productNotFound pid), repo)
      | some product =>
          if product.stock < qty then
            (.error (.insufficientStock product.name product.stock qty), repo)
          else
            createOrderLoop (repo.update_stock pid (product.stock - qty)) rest
              (acc ++ [⟨product, qty⟩])

/-- `OrderService.create_order`: run the item loop; on success build the
order (no id, default status), save it (assigning its id), log the
notification, and return the persisted order.  On failure the exception
propagates, keeping the stock decrements already applied. -/
def ServiceState.create_order (st : ServiceState) (customer_name : String)
    (items : List (Int × Int)) : Except OrderError Order × ServiceState :=
  match createOrderLoop st.product_repository items [] with
  | (.error e, repo2) => (.error e, { st with product_repository := repo2 })
  | (.ok order_items, repo2) =>
      let order : Order := { id := none, customer_name := customer_name, items := order_items }
      let saved := st.order_repository.save order
      (.ok saved.1, ⟨saved.2, repo2, st.notifications ++ [saved.1]⟩)

/-- `OrderService.get_order`: look the order up, raising "not found" when
absent.  It reads but never writes the repositories. -/
def ServiceState.get_order (st : ServiceState) (oid : Int) : Except OrderError Order :=
  match st.order_repository.find_by_id oid with
  | none => .error (.orderNotFound oid)
  | some o => .ok o

/-- `OrderService.list_orders`. -/
def ServiceState.list_orders (st : ServiceState) : List Order :=
  st.order_repository.find_all

/-- `OrderService.get_available_products`. -/
def ServiceState.get_available_products (st : ServiceState) : List Product :=
  st.product_repository.find_all

/-- One call to a public `OrderService` method, with its arguments. -/
inductive ServiceOp where
  | createOrder (customer_name : String) (items : List (Int × Int))
  | getOrder (oid : Int)
  | listOrders
  | getAvailableProducts
deriving DecidableEq, Repr

/-- State transition of one `OrderService` call.  `get_order`, `list_orders`
and `get_available_products` only read (`dict.get`, `list(...)`), so they
leave the state unchanged. -/
def stepOp (st : ServiceState) : ServiceOp → ServiceState
  | .createOrder c its => (st.create_order c its).2
  | .getOrder _ => st
  | .listOrders => st
  | .getAvailableProducts => st

/-- Run a sequence of `OrderService` calls from a starting state. -/
def runOps (st : ServiceState) (ops : List ServiceOp) : ServiceState :=
  ops.foldl stepOp st

/-- The state of a freshly assembled service (`DependencyContainer`):
fresh repositories, nothing notified yet. -/
def initialState : ServiceState := ⟨OrderRepo.empty, ProductRepo.initial, []⟩

/-!  Definitions used to state the verified properties. -/

/-- A request is valid when, pair by pair in order, the product exists and
its stock *at the moment the pair is processed* (i.e. after the decrements of
the earlier pairs) covers the requested quantity. -/
def itemsValid (repo : ProductRepo) : List (Int × Int) → Bool
  | [] => true
  | (pid, qty) :: rest =>
      match repo.find_by_id pid with
      | none => false
      | some p => !(p.stock < qty) && itemsValid (repo.update_stock pid (p.stock - qty)) rest

/-- Total quantity requested for one product across a request. -/
def requestedQty (pid : Int) : List (Int × Int) → Int
  | [] => 0
  | (p, q) :: rest => (if p = pid then q else 0) + requestedQty pid rest

/-- Sum of (unit price × quantity) over the pairs of a request, with unit
prices read from the given catalog (absent products contribute 0). -/
def expectedTotal (repo : ProductRepo) : List (Int × Int) → ℚ
  | [] => 0
  | (pid, qty) :: rest =>
      (match repo.find_by_id pid with
       | some p => p.price * (qty : ℚ)
       | none => 0) + expectedTotal repo rest

/-- Every product of the catalog has non-negative stock. -/
def stocksNonneg (repo : ProductRepo) : Bool :=
  repo.products.all fun kv => 0 ≤ kv.2.stock

/-- The stock recorded for a product id, when present. -/
def stockOf (repo : ProductRepo) (pid : Int) : Option Int :=
  (repo.find_by_id pid).map Product.stock

/-- Run a sequence of `save` calls; also collect, in call order, the ids the
store assigns to the orders that arrive without one. -/
def runSaves : OrderRepo → List Order → OrderRepo × List Int
  | repo, [] => (repo, [])
  | repo, o :: rest =>
      let res := runSaves (repo.save o).2 rest
      if o.id = none then (res.1, repo.next_id :: res.2) else res

/-- The keys under which a sequence of `save` calls stores its orders
(assigned ids for id-less orders, carried ids otherwise). -/
def saveKeys : OrderRepo → List Order → List Int
  | _, [] => []
  | repo, o :: rest =>
      (match o.id with | none => repo.next_id | some i => i) :: saveKeys (repo.save o).2 rest

/-- `[n, n+1, ..., n+k-1]`: k consecutive integers starting at n. -/
def idRange : Int → Nat → List Int
  | _, 0 => []
  | n, Nat.succ k => n :: idRange (n + 1) k

/-- The item list of the program's first demo order. -/
def demoItems : List (Int × Int) := [(1, 1), (2, 2), (4, 1)]

/-!  Lemmas about the association-list dictionary. -/

theorem dictLookup_dictInsert {α : Type} (k k2 : Int) (v : α) (l : List (Int × α)) :
    dictLookup k (dictInsert k2 v l) = if k2 = k then some v else dictLookup k l := by
  induction l with
  | nil => simp [dictLookup, dictInsert]
  | cons kv rest ih =>
      obtain ⟨a, w⟩ := kv
      by_cases ha : a = k2
      · subst ha
        simp only [dictInsert, if_pos rfl, dictLookup]
        by_cases hak : a = k <;> simp [hak]
      · simp only [dictInsert, if_neg ha, dictLookup, ih]
        by_cases hak : a = k
        · have hk2 : ¬k2 = k := fun e => ha (hak.trans e.symm)
          simp [hak, hk2]
        · simp [hak]

theorem dictInsert_dictInsert {α : Type} (k : Int) (v w : α) (l : List (Int × α)) :
    dictInsert k v (dictInsert k w l) = dictInsert k v l := by
  induction l with
  | nil => simp [dictInsert]
  | cons kv rest ih =>
      obtain ⟨a, u⟩ := kv
      by_cases h : a = k <;> simp [dictInsert, h, ih]

theorem dictLookup_map_update (pid ns k : Int) (l : List (Int × Product)) :
    dictLookup k (l.map fun kv => if kv.1 = pid then (kv.1, { kv.2 with stock := ns }) else kv) =
      if k = pid then (dictLookup k l).map (fun p => { p with stock := ns })
      else dictLookup k l := by
  induction l with
  | nil => simp [dictLookup]
  | cons kv rest ih =>
      obtain ⟨a, p⟩ := kv
      show dictLookup k ((if a = pid then (a, { p with stock := ns }) else (a, p)) ::
          rest.map fun kv => if kv.1 = pid then (kv.1, { kv.2 with stock := ns }) else kv) = _
      by_cases hap : a = pid
      · rw [if_pos hap]
        simp only [dictLookup]
        by_cases hak : a = k
        · subst hak
          simp [dictLookup, hap]
        · rw [if_neg hak, ih]
          have hk : ¬k = pid := fun e => hak (hap.trans e.symm)
          simp [dictLookup, hak, hk]
      · rw [if_neg hap]
        simp only [dictLookup]
        by_cases hak : a = k
        · subst hak
          simp [dictLookup, hap]
        · rw [if_neg hak, ih]
          simp [dictLookup, hak]

theorem find_by_id_update_stock (repo : ProductRepo) (pid ns k : Int) :
    (repo.update_stock pid ns).find_by_id k =
      if k = pid then (repo.find_by_id k).map (fun p => { p with stock := ns })
      else repo.find_by_id k :=
  dictLookup_map_update pid ns k repo.products

theorem map_update_absent (pid ns : Int) (l : List (Int × Product))
    (h : dictLookup pid l = none) :
    (l.map fun kv => if kv.1 = pid then (kv.1, { kv.2 with stock := ns }) else kv) = l := by
  induction l with
  | nil => rfl
  | cons kv rest ih =>
      obtain ⟨a, p⟩ := kv
      simp only [dictLookup] at h
      by_cases hap : a = pid
      · rw [if_pos hap] at h
        cases h
      · rw [if_neg hap] at h
        show (if a = pid then (a, { p with stock := ns }) else (a, p)) :: _ = _
        rw [if_neg hap, ih h]

/-- `update_stock` on a key absent from the catalog changes nothing. -/
theorem update_stock_absent (repo : ProductRepo) (pid ns : Int)
    (h : repo.find_by_id pid = none) : repo.update_stock pid ns = repo := by
  obtain ⟨l⟩ := repo
  simp only [ProductRepo.update_stock, ProductRepo.mk.injEq]
  exact map_update_absent pid ns l h

/-!  Lemmas about the `create_order` item loop. -/

/-- The accumulator only prefixes the produced item list; it influences
neither success nor the resulting repository. -/
theorem createOrderLoop_acc (items : List (Int × Int)) :
    ∀ (repo : ProductRepo) (acc : List OrderItem),
      createOrderLoop repo items acc =
        match createOrderLoop repo items [] with
        | (.ok its, r) => (.ok (acc ++ its), r)
        | (.error e, r) => (.error e, r) := by
  induction items with
  | nil => intro repo acc; simp [createOrderLoop]
  | cons hd rest ih =>
      intro repo acc
      obtain ⟨pid, qty⟩ := hd
      cases hfind : repo.find_by_id pid with
      | none => simp [createOrderLoop, hfind]
      | some p =>
          by_cases hs : p.stock < qty
          · simp [createOrderLoop, hfind, hs]
          · simp only [createOrderLoop, hfind, if_neg hs]
            have h1 := ih (repo.update_stock pid (p.stock - qty)) (acc ++ [⟨p, qty⟩])
            have h2 := ih (repo.update_stock pid (p.stock - qty)) ([] ++ [⟨p, qty⟩])
            rw [h1, h2]
            cases h3 : createOrderLoop (repo.update_stock pid (p.stock - qty)) rest [] with
            | mk res r => cases res <;> simp

/-- Splitting the loop at a list split: the tail runs from the state the
prefix reached, provided the prefix succeeded. -/
theorem createOrderLoop_append (pre : List (Int × Int)) :
    ∀ (repo : ProductRepo) (post : List (Int × Int)) (acc : List OrderItem),
      createOrderLoop repo (pre ++ post) acc =
        match createOrderLoop repo pre acc with
        | (.ok its, r) => createOrderLoop r post its
        | (.error e, r) => (.error e, r) := by
  induction pre with
  | nil => intro repo post acc; simp [createOrderLoop]
  | cons hd rest ih =>
      intro repo post acc
      obtain ⟨pid, qty⟩ := hd
      cases hfind : repo.find_by_id pid with
      | none => simp [createOrderLoop, hfind]
      | some p =>
          by_cases hs : p.stock < qty
          · simp [createOrderLoop, hfind, hs]
          · simp only [List.cons_append, createOrderLoop, hfind, if_neg hs]
            exact ih _ post _

/-- `update_stock` never changes a price, so the expected total is invariant
under it. -/
theorem expectedTotal_update_stock (repo : ProductRepo) (pid ns : Int)
    (l : List (Int × Int)) :
    expectedTotal (repo.update_stock pid ns) l = expectedTotal repo l := by
  induction l with
  | nil => rfl
  | cons hd rest ih =>
      obtain ⟨k, q⟩ := hd
      simp only [expectedTotal, ih, find_by_id_update_stock]
      by_cases hk : k = pid
      · subst hk
        cases repo.find_by_id k <;> simp
      · simp [hk]

/-- When the loop succeeds, each product's stock has decreased by exactly the
total quantity requested for it, and nothing else about the catalog changed. -/
theorem createOrderLoop_ok_stock (items : List (Int × Int)) :
    ∀ (repo repo2 : ProductRepo) (acc its : List OrderItem),
      createOrderLoop repo items acc = (.ok its, repo2) →
      ∀ k, repo2.find_by_id k =
        (repo.find_by_id k).map fun p => { p with stock := p.stock - requestedQty k items } := by
  induction items with
  | nil =>
      intro repo repo2 acc its h k
      simp only [createOrderLoop, Prod.mk.injEq] at h
      obtain ⟨-, h2⟩ := h
      subst h2
      cases hf : repo.find_by_id k <;> simp [requestedQty, hf]
  | cons hd rest ih =>
      intro repo repo2 acc its h k
      obtain ⟨pid, qty⟩ := hd
      cases hfind : repo.find_by_id pid with
      | none => simp [createOrderLoop, hfind] at h
      | some p =>
          simp only [createOrderLoop, hfind] at h
          by_cases hs : p.stock < qty
          · rw [if_pos hs] at h; simp at h
          · rw [if_neg hs] at h
            rw [ih _ _ _ _ h k, find_by_id_update_stock]
            by_cases hk : k = pid
            · subst hk
              rw [if_pos rfl, hfind]
              simp [requestedQty]
              all_goals omega
            · rw [if_neg hk]
              have hk2 : ¬pid = k := fun e => hk e.symm
              simp [requestedQty, hk2]

/-- A valid request makes the loop succeed. -/
theorem createOrderLoop_ok_of_valid (items : List (Int × Int)) :
    ∀ repo : ProductRepo, itemsValid repo items = true →
      ∃ its repo2, createOrderLoop repo items [] = (.ok its, repo2) := by
  induction items with
  | nil => intro repo _; exact ⟨[], repo, rfl⟩
  | cons hd rest ih =>
      intro repo h
      obtain ⟨pid, qty⟩ := hd
      cases hfind : repo.find_by_id pid with
      | none => simp [itemsValid, hfind] at h
      | some p =>
          simp only [itemsValid, hfind, Bool.and_eq_true, Bool.not_eq_true',
            decide_eq_false_iff_not] at h
          obtain ⟨hs, hrest⟩ := h
          obtain ⟨its, repo2, h2⟩ := ih _ hrest
          refine ⟨⟨p, qty⟩ :: its, repo2, ?_⟩
          simp only [createOrderLoop, hfind, if_neg hs]
          have hA := createOrderLoop_acc rest (repo.update_stock pid (p.stock - qty))
            ([] ++ [⟨p, qty⟩])
          rw [hA, h2]
          simp

/-- When the loop succeeds with an empty accumulator, the items' subtotals
sum to the expected total over the starting catalog. -/
theorem createOrderLoop_ok_total (items : List (Int × Int)) :
    ∀ (repo repo2 : ProductRepo) (its : List OrderItem),
      createOrderLoop repo items [] = (.ok its, repo2) →
      (its.map OrderItem.subtotal).sum = expectedTotal repo items := by
  induction items with
  | nil =>
      intro repo repo2 its h
      simp only [createOrderLoop, Prod.mk.injEq, Except.ok.injEq] at h
      obtain ⟨h1, -⟩ := h
      subst h1
      simp [expectedTotal]
  | cons hd rest ih =>
      intro repo repo2 its h
      obtain ⟨pid, qty⟩ := hd
      cases hfind : repo.find_by_id pid with
      | none => simp [createOrderLoop, hfind] at h
      | some p =>
          simp only [createOrderLoop, hfind] at h
          by_cases hs : p.stock < qty
          · rw [if_pos hs] at h; simp at h
          · rw [if_neg hs] at h
            have hA := createOrderLoop_acc rest (repo.update_stock pid (p.stock - qty))
              ([] ++ [⟨p, qty⟩])
            rw [hA] at h
            cases h2 : createOrderLoop (repo.update_stock pid (p.stock - qty)) rest [] with
            | mk res r =>
                rw [h2] at h
                cases res with
                | error e => simp at h
                | ok its2 =>
                    simp only [List.nil_append, Prod.mk.injEq, Except.ok.injEq] at h
                    obtain ⟨h3, h4⟩ := h
                    subst h3
                    have htot := ih _ _ _ h2
                    simp [expectedTotal, hfind, OrderItem.subtotal, htot,
                      expectedTotal_update_stock]

/-!  Lemmas about the order store. -/

/-- Ids assigned by a run of `save` calls to id-less orders: consecutive
integers from the current counter value, one per id-less order, regardless of
interleaved saves of orders that already carry an id. -/
theorem runSaves_assigned (os : List Order) :
    ∀ repo : OrderRepo, (runSaves repo os).2 =
      idRange repo.next_id (os.countP fun o => o.id = none) := by
  induction os with
  | nil => intro repo; simp [runSaves, idRange]
  | cons o rest ih =>
      intro repo
      cases h : o.id with
      | none =>
          have hnext : (repo.save o).2.next_id = repo.next_id + 1 := by
            simp [OrderRepo.save, h]
          simp [runSaves, h, List.countP_cons, ih, hnext, idRange]
      | some i =>
          have hnext : (repo.save o).2.next_id = repo.next_id := by
            simp [OrderRepo.save, h]
          simp [runSaves, h, List.countP_cons, ih, hnext]

/-- The store reached by a run of saves ignores the assigned-id log. -/
theorem runSaves_fst_cons (repo : OrderRepo) (o : Order) (rest : List Order) :
    (runSaves repo (o :: rest)).1 = (runSaves (repo.save o).2 rest).1 := by
  by_cases ho : o.id = none <;> simp [runSaves, ho]

/-- An id absent from a store, and not among the keys a run of saves stores
under, is still absent afterwards. -/
theorem runSaves_lookup_none (os : List Order) :
    ∀ (repo : OrderRepo) (oid : Int),
      repo.find_by_id oid = none → oid ∉ saveKeys repo os →
      (runSaves repo os).1.find_by_id oid = none := by
  induction os with
  | nil => intro repo oid h _; simpa [runSaves] using h
  | cons o rest ih =>
      intro repo oid h hmem
      simp only [saveKeys, List.mem_cons, not_or] at hmem
      obtain ⟨h1, h2⟩ := hmem
      rw [runSaves_fst_cons]
      refine ih _ _ ?_ h2
      cases ho : o.id with
      | none =>
          rw [ho] at h1
          simp only [OrderRepo.save, ho, OrderRepo.find_by_id, dictLookup_dictInsert]
          rw [if_neg (fun e => h1 e.symm)]
          exact h
      | some i =>
          rw [ho] at h1
          simp only [OrderRepo.save, ho, OrderRepo.find_by_id, dictLookup_dictInsert]
          rw [if_neg (fun e => h1 e.symm)]
          exact h

/-!  Lemmas about the stock non-negativity invariant. -/

theorem stocksNonneg_update_stock (repo : ProductRepo) (pid ns : Int)
    (h : stocksNonneg repo = true) (hns : 0 ≤ ns) :
    stocksNonneg (repo.update_stock pid ns) = true := by
  simp only [stocksNonneg, ProductRepo.update_stock, List.all_eq_true,
    decide_eq_true_eq] at *
  intro kv hkv
  simp only [List.mem_map] at hkv
  obtain ⟨kv0, hkv0, hmap⟩ := hkv
  by_cases hk : kv0.1 = pid
  · rw [if_pos hk] at hmap
    subst hmap
    simpa using hns
  · rw [if_neg hk] at hmap
    subst hmap
    exact h kv0 hkv0

/-- The item loop never drives a stock negative: each update writes
`stock - qty` only after checking `qty ≤ stock`. -/
theorem createOrderLoop_stocksNonneg (items : List (Int × Int)) :
    ∀ (repo : ProductRepo) (acc : List OrderItem),
      stocksNonneg repo = true →
      stocksNonneg (createOrderLoop repo items acc).2 = true := by
  induction items with
  | nil => intro repo acc h; simpa [createOrderLoop] using h
  | cons hd rest ih =>
      intro repo acc h
      obtain ⟨pid, qty⟩ := hd
      cases hfind : repo.find_by_id pid with
      | none => simpa [createOrderLoop, hfind] using h
      | some p =>
          by_cases hs : p.stock < qty
          · simpa [createOrderLoop, hfind, hs] using h
          · simp only [createOrderLoop, hfind, if_neg hs]
            exact ih _ _ (stocksNonneg_update_stock repo pid _ h (by omega))

theorem stepOp_stocksNonneg (st : ServiceState) (op : ServiceOp)
    (h : stocksNonneg st.product_repository = true) :
    stocksNonneg (stepOp st op).product_repository = true := by
  cases op with
  | createOrder c its =>
      have hloop := createOrderLoop_stocksNonneg its st.product_repository [] h
      simp only [stepOp, ServiceState.create_order]
      cases h2 : createOrderLoop st.product_repository its [] with
      | mk res repo2 =>
          rw [h2] at hloop
          cases res <;> simpa using hloop
  | getOrder oid => exact h
  | listOrders => exact h
  | getAvailableProducts => exact h

/-!  Shared helpers for the failure-path theorems. -/

/-- If every pair before some point validates and the pair at that point
finds its product but not enough stock, `create_order` stops there with the
corresponding error, keeping the stock decrements of the earlier pairs. -/
theorem createOrder_stops_insufficient (st : ServiceState) (c : String)
    (pre post : List (Int × Int)) (pid qty : Int) (p : Product)
    (its : List OrderItem) (repo1 : ProductRepo)
    (hpre : createOrderLoop st.product_repository pre [] = (.ok its, repo1))
    (hfind : repo1.find_by_id pid = some p)
    (hstock : p.stock < qty) :
    st.create_order c (pre ++ (pid, qty) :: post) =
      (.error (.insufficientStock p.name p.stock qty),
        { st with product_repository := repo1 }) := by
  simp only [ServiceState.create_order]
  have hA := createOrderLoop_append pre st.product_repository ((pid, qty) :: post) []
  rw [hA, hpre]
  simp only [createOrderLoop, hfind, if_pos hstock]

/-- C2: a request containing a pair whose product exists but whose stock at
the moment the pair is processed is below the requested quantity fails with
an insufficient-stock error carrying that product's name, its available
stock, and the requested quantity; the order store and the notification log
are untouched by the call. -/
theorem create_order_insufficient_stock (st : ServiceState) (c : String)
    (pre post : List (Int × Int)) (pid qty : Int) (p : Product)
    (its : List OrderItem) (repo1 : ProductRepo)
    (hpre : createOrderLoop st.product_repository pre [] = (.ok its, repo1))
    (hfind : repo1.find_by_id pid = some p)
    (hstock : p.stock < qty) :
    st.create_order c (pre ++ (pid, qty) :: post) =
      (.error (.insufficientStock p.name p.stock qty),
        { st with product_repository := repo1 }) ∧
    (st.create_order c (pre ++ (pid, qty) :: post)).2.order_repository =
      st.order_repository ∧
    (st.create_order c (pre ++ (pid, qty) :: post)).2.notifications =
      st.notifications := by
  have h := createOrder_stops_insufficient st c pre post pid qty p its repo1 hpre hfind hstock
  exact ⟨h, by rw [h], by rw [h]⟩

/-- C3: a request whose first invalid pair names a product id absent from
the catalog fails with a product-not-found error for that id; the catalog
keeps exactly the decrements of the pairs already processed (the state
`repo1` the prefix reached), and the order store and notification log are
untouched. -/
theorem create_order_product_not_found (st : ServiceState) (c : String)
    (pre post : List (Int × Int)) (pid qty : Int)
    (its : List OrderItem) (repo1 : ProductRepo)
    (hpre : createOrderLoop st.product_repository pre [] = (.ok its, repo1))
    (hfind : repo1.find_by_id pid = none) :
    st.create_order c (pre ++ (pid, qty) :: post) =
      (.error (.productNotFound pid), { st with product_repository := repo1 }) ∧
    (st.create_order c (pre ++ (pid, qty) :: post)).2.product_repository = repo1 ∧
    (st.create_order c (pre ++ (pid, qty) :: post)).2.order_repository =
      st.order_repository ∧
    (st.create_order c (pre ++ (pid, qty) :: post)).2.notifications =
      st.notifications := by
  have h : st.create_order c (pre ++ (pid, qty) :: post) =
      (.error (.productNotFound pid), { st with product_repository := repo1 }) := by
    simp only [ServiceState.create_order]
    have hA := createOrderLoop_append pre st.product_repository ((pid, qty) :: post) []
    rw [hA, hpre]
    simp only [createOrderLoop, hfind]
  exact ⟨h, by rw [h], by rw [h], by rw [h]⟩

/-- C1: a request in which every pair finds its product with sufficient
remaining stock succeeds; the returned order's total is the sum of
(unit price × quantity) over the pairs, and each product's stock decreases by
exactly the total quantity requested for it. -/
theorem create_order_success_spec (st : ServiceState) (c : String)
    (items : List (Int × Int)) (h : itemsValid st.product_repository items = true) :
    ∃ o st2, st.create_order c items = (.ok o, st2) ∧
      o.total = expectedTotal st.product_repository items ∧
      ∀ k, st2.product_repository.find_by_id k =
        (st.product_repository.find_by_id k).map
          fun p => { p with stock := p.stock - requestedQty k items } := by
  obtain ⟨its, repo2, h2⟩ := createOrderLoop_ok_of_valid items st.product_repository h
  refine ⟨(st.order_repository.save { id := none, customer_name := c, items := its }).1,
    ⟨(st.order_repository.save { id := none, customer_name := c, items := its }).2, repo2,
      st.notifications ++
        [(st.order_repository.save { id := none, customer_name := c, items := its }).1]⟩,
    ?_, ?_, ?_⟩
  · simp only [ServiceState.create_order, h2]
  · exact createOrderLoop_ok_total items st.product_repository repo2 its h2
  · exact createOrderLoop_ok_stock items st.product_repository repo2 [] its h2

/-- C9: when the combined quantity requested for a product exceeds its
initial stock, the call fails at the first pair whose remaining stock (the
initial stock minus the quantities of the earlier pairs) is below that
pair's quantity, and the error reports the already-reduced available stock;
the earlier decrements persist in the final state. -/
theorem create_order_running_stock (st : ServiceState) (c : String)
    (pre post : List (Int × Int)) (pid qty : Int) (p : Product)
    (its : List OrderItem) (repo1 : ProductRepo)
    (hpre : createOrderLoop st.product_repository pre [] = (.ok its, repo1))
    (hfind : st.product_repository.find_by_id pid = some p)
    (hcomb : p.stock - requestedQty pid pre < qty) :
    st.create_order c (pre ++ (pid, qty) :: post) =
      (.error (.insufficientStock p.name (p.stock - requestedQty pid pre) qty),
        { st with product_repository := repo1 }) := by
  have hst := createOrderLoop_ok_stock pre st.product_repository repo1 [] its hpre pid
  rw [hfind] at hst
  exact createOrder_stops_insufficient st c pre post pid qty
    { p with stock := p.stock - requestedQty pid pre } its repo1 hpre hst hcomb

/-- C10: `create_order` with an empty items list succeeds: the persisted
order has no items, total 0, status "pending" and the freshly assigned id;
no stock changes and the notifier is invoked for the order. -/
theorem create_order_empty_items (st : ServiceState) (c : String) :
    ∃ o st2, st.create_order c [] = (.ok o, st2) ∧
      o.items = [] ∧ o.total = 0 ∧ o.status = "pending" ∧
      o.id = some st.order_repository.next_id ∧
      st2.order_repository.find_by_id st.order_repository.next_id = some o ∧
      st2.product_repository = st.product_repository ∧
      st2.notifications = st.notifications ++ [o] := by
  refine ⟨{ id := some st.order_repository.next_id, customer_name := c, items := [] },
    ⟨⟨dictInsert st.order_repository.next_id
        { id := some st.order_repository.next_id, customer_name := c, items := [] }
        st.order_repository.orders,
      st.order_repository.next_id + 1⟩,
      st.product_repository,
      st.notifications ++
        [{ id := some st.order_repository.next_id, customer_name := c, items := [] }]⟩,
    ?_, rfl, rfl, rfl, rfl, ?_, rfl, rfl⟩
  · rfl
  · simp [OrderRepo.find_by_id, dictLookup_dictInsert]

/-- C4: from a catalog whose stocks are all non-negative, any sequence of
`OrderService` operations — successful or failing — leaves every stock
non-negative. -/
theorem stocks_nonneg_invariant (st : ServiceState) (ops : List ServiceOp)
    (h : stocksNonneg st.product_repository = true) :
    stocksNonneg (runOps st ops).product_repository = true := by
  induction ops generalizing st with
  | nil => simpa [runOps] using h
  | cons op rest ih =>
      simp only [runOps, List.foldl_cons]
      exact ih _ (stepOp_stocksNonneg st op h)

/-- C5: within one fresh order store, the ids assigned to orders arriving
without one are exactly `1, 2, 3, ...` in call order — consecutive integers
starting at 1 — regardless of interleaved saves of orders that already carry
an id. -/
theorem save_ids_sequential (os : List Order) :
    (runSaves OrderRepo.empty os).2 =
      idRange 1 (os.countP fun o => o.id = none) :=
  runSaves_assigned os OrderRepo.empty

/-- C6: saving an order that already has an id keeps the order and the
store's counter unchanged, overwrites the record stored under that id (so
`find_by_id` then returns the saved order), and saving the same order twice
leaves the store exactly as saving it once. -/
theorem save_existing_id (repo : OrderRepo) (o : Order) (i : Int) (h : o.id = some i) :
    (repo.save o).1 = o ∧
    (repo.save o).2.next_id = repo.next_id ∧
    (repo.save o).2.find_by_id i = some o ∧
    ((repo.save o).2.save o).2 = (repo.save o).2 := by
  refine ⟨?_, ?_, ?_, ?_⟩
  · simp [OrderRepo.save, h]
  · simp [OrderRepo.save, h]
  · simp [OrderRepo.save, h, OrderRepo.find_by_id, dictLookup_dictInsert]
  · simp [OrderRepo.save, h, dictInsert_dictInsert]

/-- C7: `update_stock` on an unknown id leaves the catalog exactly as it
was; on a known id it overwrites only that product's stock with the given
integer (no bounds check — any integer, including a negative one, is
stored), leaving the product's other fields and every other product
unchanged. -/
theorem update_stock_spec (repo : ProductRepo) (pid ns : Int) :
    (repo.find_by_id pid = none → repo.update_stock pid ns = repo) ∧
    (∀ p, repo.find_by_id pid = some p →
      (repo.update_stock pid ns).find_by_id pid = some { p with stock := ns }) ∧
    (∀ k, k ≠ pid → (repo.update_stock pid ns).find_by_id k = repo.find_by_id k) := by
  refine ⟨update_stock_absent repo pid ns, ?_, ?_⟩
  · intro p h
    rw [find_by_id_update_stock, if_pos rfl, h]
    rfl
  · intro k hk
    rw [find_by_id_update_stock, if_neg hk]

/-- C8: `get_order` fails with an order-not-found error exactly when no
order is stored under the id — in particular for any id that is not among
the keys a run of saves on a fresh store stored under — and otherwise
returns the stored order; in both cases the call leaves the state
unchanged. -/
theorem get_order_spec (st : ServiceState) (oid : Int) :
    (st.get_order oid = .error (.orderNotFound oid) ↔
      st.order_repository.find_by_id oid = none) ∧
    (∀ o, st.order_repository.find_by_id oid = some o → st.get_order oid = .ok o) ∧
    stepOp st (.getOrder oid) = st ∧
    (∀ os, oid ∉ saveKeys OrderRepo.empty os →
      (runSaves OrderRepo.empty os).1.find_by_id oid = none) := by
  refine ⟨⟨?_, ?_⟩, ?_, rfl, ?_⟩
  · intro h
    cases hf : st.order_repository.find_by_id oid with
    | none => rfl
    | some o => simp [ServiceState.get_order, hf] at h
  · intro h
    simp [ServiceState.get_order, h]
  · intro o h
    simp [ServiceState.get_order, h]
  · intro os h
    exact runSaves_lookup_none os OrderRepo.empty oid rfl h

/-!  Concrete instances of the theorems above (the program's demo data). -/

/-- A concrete call sequence mixing successes, failures and reads. -/
def demoOps : List ServiceOp :=
  [.createOrder "María González" demoItems, .createOrder "Carlos Ruiz" [(1, 10)],
   .getOrder 1, .listOrders, .getAvailableProducts, .createOrder "Ana" [(99, 1)]]

theorem create_order_success_spec_witness :
    itemsValid initialState.product_repository demoItems = true ∧
    (∃ o st2, initialState.create_order "María González" demoItems = (.ok o, st2) ∧
      o.total = expectedTotal initialState.product_repository demoItems ∧
      ∀ k, st2.product_repository.find_by_id k =
        (initialState.product_repository.find_by_id k).map
          fun p => { p with stock := p.stock - requestedQty k demoItems }) ∧
    expectedTotal initialState.product_repository demoItems = 159197 / 100 ∧
    stockOf (initialState.create_order "María González" demoItems).2.product_repository 1 =
      some 4 ∧
    stockOf (initialState.create_order "María González" demoItems).2.product_repository 2 =
      some 18 ∧
    stockOf (initialState.create_order "María González" demoItems).2.product_repository 4 =
      some 7 :=
  ⟨by decide,
   create_order_success_spec initialState "María González" demoItems (by decide),
   by norm_num [expectedTotal, demoItems, initialState, ProductRepo.initial,
     initialProducts, ProductRepo.find_by_id, dictLookup],
   by decide, by decide, by decide⟩

theorem create_order_insufficient_stock_witness :
    initialState.create_order "Carlos Ruiz" ([] ++ (1, 10) :: []) =
      (.error (.insufficientStock "Laptop Gaming" 5 10),
        { initialState with product_repository := ProductRepo.initial }) ∧
    (initialState.create_order "Carlos Ruiz" ([] ++ (1, 10) :: [])).2.order_repository =
      initialState.order_repository ∧
    (initialState.create_order "Carlos Ruiz" ([] ++ (1, 10) :: [])).2.notifications =
      initialState.notifications :=
  create_order_insufficient_stock initialState "Carlos Ruiz" [] [] 1 10
    ⟨1, "Laptop Gaming", 1200, 5⟩ [] ProductRepo.initial rfl rfl (by decide)

theorem create_order_product_not_found_witness :
    initialState.create_order "Ana Torres" ([(1, 2)] ++ (99, 1) :: [(2, 5)]) =
      (.error (.productNotFound 99),
        { initialState with product_repository := ProductRepo.initial.update_stock 1 3 }) ∧
    (initialState.create_order "Ana Torres"
        ([(1, 2)] ++ (99, 1) :: [(2, 5)])).2.product_repository =
      ProductRepo.initial.update_stock 1 3 ∧
    (initialState.create_order "Ana Torres"
        ([(1, 2)] ++ (99, 1) :: [(2, 5)])).2.order_repository =
      initialState.order_repository ∧
    (initialState.create_order "Ana Torres"
        ([(1, 2)] ++ (99, 1) :: [(2, 5)])).2.notifications =
      initialState.notifications :=
  create_order_product_not_found initialState "Ana Torres" [(1, 2)] [(2, 5)] 99 1
    [⟨⟨1, "Laptop Gaming", 1200, 5⟩, 2⟩] (ProductRepo.initial.update_stock 1 3) rfl rfl

theorem stocks_nonneg_invariant_witness :
    stocksNonneg initialState.product_repository = true ∧
    stocksNonneg (runOps initialState demoOps).product_repository = true :=
  ⟨by decide, stocks_nonneg_invariant initialState demoOps (by decide)⟩

theorem save_existing_id_witness :
    ((⟨[], 5⟩ : OrderRepo).save
        { id := some 2, customer_name := "Luis Pérez", items := [] }).1 =
      { id := some 2, customer_name := "Luis Pérez", items := [] } ∧
    ((⟨[], 5⟩ : OrderRepo).save
        { id := some 2, customer_name := "Luis Pérez", items := [] }).2.next_id =
      (⟨[], 5⟩ : OrderRepo).next_id ∧
    ((⟨[], 5⟩ : OrderRepo).save
        { id := some 2, customer_name := "Luis Pérez", items := [] }).2.find_by_id 2 =
      some { id := some 2, customer_name := "Luis Pérez", items := [] } ∧
    (((⟨[], 5⟩ : OrderRepo).save
        { id := some 2, customer_name := "Luis Pérez", items := [] }).2.save
          { id := some 2, customer_name := "Luis Pérez", items := [] }).2 =
      ((⟨[], 5⟩ : OrderRepo).save
        { id := some 2, customer_name := "Luis Pérez", items := [] }).2 :=
  save_existing_id ⟨[], 5⟩ { id := some 2, customer_name := "Luis Pérez", items := [] } 2 rfl

theorem update_stock_spec_witness :
    ProductRepo.initial.update_stock 99 7 = ProductRepo.initial ∧
    (ProductRepo.initial.update_stock 1 (-5)).find_by_id 1 =
      some { id := 1, name := "Laptop Gaming", price := 1200, stock := -5 } ∧
    (ProductRepo.initial.update_stock 1 (-5)).find_by_id 3 =
      ProductRepo.initial.find_by_id 3 :=
  ⟨(update_stock_spec ProductRepo.initial 99 7).1 rfl,
   (update_stock_spec ProductRepo.initial 1 (-5)).2.1 ⟨1, "Laptop Gaming", 1200, 5⟩ rfl,
   (update_stock_spec ProductRepo.initial 1 (-5)).2.2 3 (by decide)⟩

theorem get_order_spec_witness :
    initialState.get_order 1 = .error (.orderNotFound 1) ∧
    (⟨⟨[(3, { id := some 3, customer_name := "Eva", items := [] })], 4⟩,
        ProductRepo.initial, []⟩ : ServiceState).get_order 3 =
      .ok { id := some 3, customer_name := "Eva", items := [] } ∧
    (runSaves OrderRepo.empty
        [{ id := none, customer_name := "Eva", items := [] }]).1.find_by_id 8 = none :=
  ⟨(get_order_spec initialState 1).1.mpr rfl,
   (get_order_spec ⟨⟨[(3, { id := some 3, customer_name := "Eva", items := [] })], 4⟩,
       ProductRepo.initial, []⟩ 3).2.1
     { id := some 3, customer_name := "Eva", items := [] } rfl,
   (get_order_spec initialState 8).2.2.2
     [{ id := none, customer_name := "Eva", items := [] }] (by decide)⟩

theorem create_order_running_stock_witness :
    initialState.create_order "Pedro Gómez" ([(1, 3)] ++ (1, 3) :: []) =
      (.error (.insufficientStock "Laptop Gaming" 2 3),
        { initialState with product_repository := ProductRepo.initial.update_stock 1 2 }) :=
  create_order_running_stock initialState "Pedro Gómez" [(1, 3)] [] 1 3
    ⟨1, "Laptop Gaming", 1200, 5⟩ [⟨⟨1, "Laptop Gaming", 1200, 5⟩, 3⟩]
    (ProductRepo.initial.update_stock 1 2) rfl rfl (by decide)

end SistemaPedidos
